import Mathlib

/-!
Verification development for `MotionExtractor` (src/MotionExtractor.cpp).

Shallow embedding conventions:
- pixel buffers are row-major lists of 3-channel pixels (`kBytesPerPixel = 3`,
  so one pixel of byte offset in the source is one list index here);
- `uint8_t` channels are `Nat`s in 0..255, `unsigned int` counters wrap at
  2^32, `unsigned short` accumulators wrap at 2^16;
- `double` is modelled as `ℚ`;
- thrown exceptions become `Except` errors (an exception in the source leaves
  the object unmodified because every throw happens before any mutation);
- out-of-range reads through the byte-offset neighbour table (which the source
  can perform at the image edges) are modelled as reading 0;
- the benchmarking branch of `generateMotionMask` (wall-clock FPS sampling,
  source lines 100-107) only updates observational counters and is omitted
  from the modelled state.
-/

/-- One 3-channel pixel (`kBytesPerPixel = 3`). -/
abbrev Pix := Nat × Nat × Nat

/-- Read a pixel from a row-major buffer; out-of-range reads give (0,0,0). -/
def getPixD (l : List Pix) (i : Nat) : Pix := l.getD i (0, 0, 0)

/-- Indicator byte (byte 0 of a pixel) at a signed pixel index; reads outside
the buffer are modelled as 0. -/
def ind (l : List Pix) (i : Int) : Nat :=
  if 0 ≤ i then (getPixD l i.toNat).1 else 0

/-- Channel accessor, used to state per-channel properties. -/
def chan (p : Pix) (c : Fin 3) : Nat :=
  if c.val = 0 then p.1 else if c.val = 1 then p.2.1 else p.2.2

/-- Modelled from the spec: `Math::sign` comes from MKMath.hpp, which is not
under src/.  Spec 4.2 describes the use site as "tracked pixel channel +=
sign(sample − tracked) per channel (integer ±1 nudge toward the sample)". -/
def mathSign (v : Int) : Int := if 0 < v then 1 else if v < 0 then -1 else 0

/-- One channel of the nudge `cip[b] += Math::sign(tip[b] - cip[b])`
(source line 142).  The result stays in 0..255 whenever both inputs are
(the step moves `c` toward `t`), so the `uint8_t` store cannot wrap. -/
def nudge (t c : Nat) : Nat := ((c : Int) + mathSign ((t : Int) - (c : Int))).toNat

/-- The per-pixel nudge of source lines 141-143 (first argument is the new
sample `tip`, second the tracked pixel `cip`). -/
def nudgePix (t c : Pix) : Pix := (nudge t.1 c.1, nudge t.2.1 c.2.1, nudge t.2.2 c.2.2)

/-- `MotionExtractor::pixelIsDifferent` (source lines 85-96): true iff some
channel differs by more than `motionThreshold` in absolute value (the source
loop with early `break` is an or-chain over the three channels). -/
def pixelIsDifferent (pa pb : Pix) (th : Int) : Bool :=
  decide (th < |(pa.1 : Int) - (pb.1 : Int)|) ||
  decide (th < |(pa.2.1 : Int) - (pb.2.1 : Int)|) ||
  decide (th < |(pa.2.2 : Int) - (pb.2.2 : Int)|)

/-!
## Downscaler (`MotionExtractor::downscale`, source lines 247-294)

The source's pointer-walking while loop is embedded literally: the loop state
carries the accumulator pointer (`accum`), the start of the current
accumulator row (`accumRow`), the counters `accumRowsDone`, `rowPixelsDone`,
`srcRowsPerAccumRow` and the source pointer (`srcPixel`), all pointers kept
as pixel indices (all pointer arithmetic in the source moves in multiples of
`kBytesPerPixel`).  The while loop is unrolled with fuel `2 * W * H`, which
is proved below to be exactly the number of iterations the source performs.
-/

structure DownscaleSt where
  accumBuf : List Pix
  accumIdx : Nat
  accumRowStart : Nat
  accumRowsDone : Nat
  rowPixelsDone : Nat
  srcRowsPerAccumRow : Nat
  srcIdx : Nat
  deriving Repr, DecidableEq

/-- Two `accum[c] += srcPixel[c]` sweeps (source lines 266-271); the
accumulators are `unsigned short`, hence the mod 2^16. -/
def addPix (a p q : Pix) : Pix :=
  ((a.1 + p.1 + q.1) % 65536, (a.2.1 + p.2.1 + q.2.1) % 65536,
   (a.2.2 + p.2.2 + q.2.2) % 65536)

/-- One iteration of the accumulation while loop (source lines 263-289). -/
def downscaleStep (frame : List Pix) (W srcW : Nat) (st : DownscaleSt) : DownscaleSt :=
  let p0 := getPixD frame st.srcIdx
  let p1 := getPixD frame (st.srcIdx + 1)
  let buf := st.accumBuf.set st.accumIdx (addPix (getPixD st.accumBuf st.accumIdx) p0 p1)
  let st1 : DownscaleSt := { st with accumBuf := buf, accumIdx := st.accumIdx + 1,
                                     srcIdx := st.srcIdx + 2 }
  if st1.rowPixelsDone + 1 = W then
    let st2 : DownscaleSt :=
      if st1.srcRowsPerAccumRow + 1 = 2 then
        { st1 with rowPixelsDone := 0, accumRowsDone := st1.accumRowsDone + 1,
                   accumRowStart := (st1.accumRowsDone + 1) * W, srcRowsPerAccumRow := 0 }
      else
        { st1 with rowPixelsDone := 0, srcRowsPerAccumRow := st1.srcRowsPerAccumRow + 1 }
    { st2 with accumIdx := st2.accumRowStart,
               srcIdx := (st2.accumRowsDone * 2 + st2.srcRowsPerAccumRow) * srcW }
  else
    { st1 with rowPixelsDone := st1.rowPixelsDone + 1 }

/-- The `while (accum < accumEnd)` loop, unrolled on fuel. -/
def downscaleLoopAux (frame : List Pix) (W srcW size : Nat) :
    Nat → DownscaleSt → DownscaleSt
  | 0, st => st
  | fuel + 1, st =>
      if st.accumIdx < size then
        downscaleLoopAux frame W srcW size fuel (downscaleStep frame W srcW st)
      else st

/-- `MotionExtractor::downscale`: clear the accumulators, run the
accumulation loop, then divide every accumulator by `kDownscaleSquare = 4`
and store into the `uint8_t` destination (source lines 290-294). -/
def downscale (frame : List Pix) (W H srcW : Nat) : List Pix :=
  let size := W * H
  let init : DownscaleSt :=
    { accumBuf := List.replicate size (0, 0, 0), accumIdx := 0, accumRowStart := 0,
      accumRowsDone := 0, rowPixelsDone := 0, srcRowsPerAccumRow := 0, srcIdx := 0 }
  let fin := downscaleLoopAux frame W srcW size (2 * size) init
  fin.accumBuf.map fun a => (a.1 / 4 % 256, a.2.1 / 4 % 256, a.2.2 / 4 % 256)


/-- The accumulation loop state after `k` iterations of pass `s` (0 or 1) of
accumulator row `R`: the accumulator pointer sits `k` pixels into the row,
the source pointer `2k` pixels into source row `2R + s`.  With `k = 0` this
is the state at the start of a pass; with `R = H, s = 0, k = 0` it is the
state in which the loop exits. -/
def midState (W srcW R s k : Nat) (buf : List Pix) : DownscaleSt :=
  { accumBuf := buf, accumIdx := R * W + k, accumRowStart := R * W, accumRowsDone := R,
    rowPixelsDone := k, srcRowsPerAccumRow := s, srcIdx := (2 * R + s) * srcW + 2 * k }

/-- What `k` iterations of pass `s` of row `R` accumulate: entry `R*W + x`
(`x < k`) gains source pixels `2x` and `2x + 1` of source row `2R + s`. -/
def passAccum (frame : List Pix) (W srcW R s : Nat) : Nat → List Pix → List Pix
  | 0, buf => buf
  | k + 1, buf =>
      let prev := passAccum frame W srcW R s k buf
      prev.set (R * W + k)
        (addPix (getPixD prev (R * W + k))
          (getPixD frame ((2 * R + s) * srcW + 2 * k))
          (getPixD frame ((2 * R + s) * srcW + 2 * k + 1)))

/-- What one full accumulator row (source rows `2R` then `2R + 1`) accumulates. -/
def rowAccum (frame : List Pix) (W srcW R : Nat) (buf : List Pix) : List Pix :=
  passAccum frame W srcW R 1 W (passAccum frame W srcW R 0 W buf)

/-- What `m` consecutive accumulator rows starting at row `R` accumulate. -/
def rowsAccum (frame : List Pix) (W srcW : Nat) : Nat → Nat → List Pix → List Pix
  | 0, _, buf => buf
  | m + 1, R, buf => rowsAccum frame W srcW m (R + 1) (rowAccum frame W srcW R buf)

/-!
## Morphological filter (source lines 170-233)

The constructor (source lines 68-78) builds the neighbour table `offs` of
`PixelOffset(x, y, byteOffset)` entries, with `po = 3` (one pixel) and
`upOne = -3*W` (one row up).  In pixel units `po = 1` and `upOne = -W`.
Note that the source reuses `upOne` for the three entries whose logical
coordinate offset is `y + 1` (lines 76-78), so their byte offsets point one
row ABOVE the pixel, exactly as in the source. -/
def offsTable (W : Nat) : List (Int × Int × Int) :=
  [(-1, 0, -1), (1, 0, 1),
   (-1, -1, -(W : Int) - 1), (0, -1, -(W : Int)), (1, -1, -(W : Int) + 1),
   (-1, 1, -(W : Int) - 1), (0, 1, -(W : Int)), (1, 1, -(W : Int) + 1)]

/-- The `adjacents` count of the erosion loop (source lines 179-185): the
number of table entries whose guard `x + it->x > 0 && y + it->y > 0` passes
and whose dereferenced byte `(bmp + it->p)[0]` is nonzero.  `i` is the pixel
index of the current pixel (`i = y * W + x`). -/
def adjacents (W : Nat) (mask : List Pix) (x y i : Int) : Nat :=
  (offsTable W).countP fun o =>
    decide (0 < x + o.1) && decide (0 < y + o.2.1) && decide (0 < ind mask (i + o.2.2))

/-- Erosion pass (source lines 170-201): a moving pixel survives iff its
`adjacents` count reaches `erosionLevel`; non-moving pixels stay off; the two
colour channels pass through.  The running `x`/`y` counters of the source
equal `i % W` / `i / W` for the pixel at index `i`. -/
def erodePass (W : Nat) (erosionLevel : Int) (mask : List Pix) : List Pix :=
  (List.range mask.length).map fun i =>
    let m := getPixD mask i
    let x : Int := (i % W : Nat)
    let y : Int := (i / W : Nat)
    let e := if 0 < m.1 then
               if erosionLevel ≤ (adjacents W mask x y (i : Int) : Int) then m.1 else 0
             else 0
    (e, m.2.1, m.2.2)

/-- Dilation pass (source lines 204-231): a pixel that is on stays on; a
pixel that is off turns on (to 255) iff some table entry passes the same
guard and dereferences to a nonzero byte. -/
def dilatePass (W : Nat) (mask : List Pix) : List Pix :=
  (List.range mask.length).map fun i =>
    let m := getPixD mask i
    let x : Int := (i % W : Nat)
    let y : Int := (i / W : Nat)
    let e := if 0 < m.1 then m.1
             else if 0 < adjacents W mask x y (i : Int) then 255 else 0
    (e, m.2.1, m.2.2)

/-!
## Extractor state and `generateMotionMask`
-/

/-- The mutable state of a `MotionExtractor` instance.  `srcWidth` stands for
`srcLineSize / kBytesPerPixel` (the constructor's `frameWidth`).  The
benchmarking counters are omitted (observational only). -/
structure MEState where
  imageWidth : Nat
  imageHeight : Nat
  srcWidth : Nat
  fps : ℚ
  motionThreshold : Int
  stableCap : Nat
  erosionLevel : Int
  currentImage : List Pix
  refImage : List Pix
  motionMask : List Pix
  currentStableTimes : List Nat
  stableRecords : List Nat
  firstFrame : Bool
  deriving Repr, DecidableEq

/-- `MotionExtractor::reset` (source lines 237-245): zero all stability
timers and records and re-arm the first-frame special case. -/
def MEState.reset (st : MEState) : MEState :=
  { st with currentStableTimes := List.replicate st.currentStableTimes.length 0,
            stableRecords := List.replicate (st.imageWidth * st.imageHeight) 0,
            firstFrame := true }

/-- The constructor (source lines 19-82): image dimensions are the source
dimensions divided by `kDownscaleRatio = 2` (integer division), default
threshold 26, default erosion level 5, `stableCap = ceil(videoFPS)`; then
`reset()`.  The image buffers are left uninitialized by the source
(`VideoFrame(..., false)`); they are zero-filled here, and no claim below
depends on their initial contents (the first frame overwrites them). -/
def mkMotionExtractor (frameWidth frameHeight : Nat) (videoFPS : ℚ) (_benchmark : Bool) :
    MEState :=
  let imageWidth := frameWidth / 2
  let imageHeight := frameHeight / 2
  let imageArea := imageWidth * imageHeight
  MEState.reset
    { imageWidth := imageWidth, imageHeight := imageHeight, srcWidth := frameWidth,
      fps := videoFPS, motionThreshold := 26, stableCap := (Int.ceil videoFPS).toNat,
      erosionLevel := 5,
      currentImage := List.replicate imageArea (0, 0, 0),
      refImage := List.replicate imageArea (0, 0, 0),
      motionMask := List.replicate imageArea (0, 0, 0),
      currentStableTimes := List.replicate imageArea 0,
      stableRecords := List.replicate imageArea 0,
      firstFrame := true }

/-- Pass 1, tracked pixel (source lines 134-144): snap to the sample on a
significant difference, otherwise nudge one step toward it. -/
def track1 (th : Int) (s c : Pix) : Pix :=
  if pixelIsDifferent s c th then s else nudgePix s c

/-- Pass 1, stability timer (source lines 135 and 140): reset to 0 on a
significant difference, otherwise increment (`unsigned int`, mod 2^32). -/
def timer1 (th : Int) (s c : Pix) (t : Nat) : Nat :=
  if pixelIsDifferent s c th then 0 else (t + 1) % 4294967296

/-- Pass 2, reference pixel (source lines 156-157): promoted from the tracked
pixel when the timer beats the record. -/
def ref2 (t rec : Nat) (c r : Pix) : Pix := if rec < t then c else r

/-- Pass 2, stability record (source line 158): `min(timer, stableCap)` on
promotion. -/
def record2 (cap t rec : Nat) : Nat := if rec < t then min t cap else rec

/-- Pass 2, mask indicator byte (source lines 163-166). -/
def maskIndicator (th : Int) (r c : Pix) : Nat :=
  if pixelIsDifferent r c th then 255 else 0

/-- Tracked pixel `i` after pass 1, given the downscaled sample buffer. -/
def track1At (st : MEState) (dsc : List Pix) (i : Nat) : Pix :=
  track1 st.motionThreshold (getPixD dsc i) (getPixD st.currentImage i)

/-- Stability timer `i` after pass 1. -/
def timer1At (st : MEState) (dsc : List Pix) (i : Nat) : Nat :=
  timer1 st.motionThreshold (getPixD dsc i) (getPixD st.currentImage i)
    (st.currentStableTimes.getD i 0)

/-- Reference pixel `i` after pass 2 (the promotion test reads the pass-1
timer and the tracked pixel updated in place by pass 1). -/
def ref2At (st : MEState) (dsc : List Pix) (i : Nat) : Pix :=
  ref2 (timer1At st dsc i) (st.stableRecords.getD i 0) (track1At st dsc i)
    (getPixD st.refImage i)

/-- Stability record `i` after pass 2. -/
def record2At (st : MEState) (dsc : List Pix) (i : Nat) : Nat :=
  record2 st.stableCap (timer1At st dsc i) (st.stableRecords.getD i 0)

/-- Mask pixel `i` after pass 2: indicator from the updated reference and
tracked pixels; bytes 1 and 2 are never written by pass 2 and keep their
previous contents. -/
def maskPixAt (st : MEState) (dsc : List Pix) (i : Nat) : Pix :=
  (maskIndicator st.motionThreshold (ref2At st dsc i) (track1At st dsc i),
   (getPixD st.motionMask i).2.1, (getPixD st.motionMask i).2.2)

/-- The raw (pre-filter) motion mask produced by pass 2. -/
def rawMask (st : MEState) (dsc : List Pix) : List Pix :=
  (List.range (st.imageWidth * st.imageHeight)).map (maskPixAt st dsc)

/-- `MotionExtractor::generateMotionMask` (source lines 98-235).  On the
first frame: copy the downscaled frame into the tracked and reference
images, wipe the mask's indicator channel, clear the flag.  Otherwise: the
two per-pixel passes, then (if `erosionLevel > 0`) erosion followed by
dilation, each pass copied back into the mask (`*motionMask = *erodedMask`). -/
def generateMotionMask (frame : List Pix) (st : MEState) : MEState :=
  let dsc := downscale frame st.imageWidth st.imageHeight st.srcWidth
  if st.firstFrame then
    { st with currentImage := dsc, refImage := dsc, firstFrame := false,
              motionMask := (List.range (st.imageWidth * st.imageHeight)).map fun i =>
                (0, (getPixD st.motionMask i).2.1, (getPixD st.motionMask i).2.2) }
  else
    let n := st.imageWidth * st.imageHeight
    { st with
      currentImage := (List.range n).map (track1At st dsc),
      currentStableTimes := (List.range n).map (timer1At st dsc),
      refImage := (List.range n).map (ref2At st dsc),
      stableRecords := (List.range n).map (record2At st dsc),
      motionMask :=
        if 0 < st.erosionLevel then
          dilatePass st.imageWidth (erodePass st.imageWidth st.erosionLevel (rawMask st dsc))
        else rawMask st dsc }

/-- `k` consecutive calls of `generateMotionMask` with the same frame. -/
def genN (frame : List Pix) : Nat → MEState → MEState
  | 0, st => st
  | k + 1, st => generateMotionMask frame (genN frame k st)

/-- The four per-pixel components evolved by a non-first call: tracked pixel,
reference pixel, stability timer, stability record. -/
structure PixState where
  c : Pix
  r : Pix
  t : Nat
  rc : Nat
  deriving Repr, DecidableEq

/-- The per-pixel transition performed by one non-first `generateMotionMask`
call at a pixel whose downscaled sample is `s` (passes 1 and 2 read and
write only the pixel's own four components). -/
def pixStep (th : Int) (cap : Nat) (s : Pix) (q : PixState) : PixState :=
  let c2 := track1 th s q.c
  let t2 := timer1 th s q.c q.t
  { c := c2, r := ref2 t2 q.rc c2 q.r, t := t2, rc := record2 cap t2 q.rc }

/-- Read the four per-pixel components of a state at pixel `i`. -/
def pixAt (st : MEState) (i : Nat) : PixState :=
  { c := getPixD st.currentImage i, r := getPixD st.refImage i,
    t := st.currentStableTimes.getD i 0, rc := st.stableRecords.getD i 0 }

/-!
## Parameter store (source lines 296-364)
-/

/-- The exception kinds thrown by the parameter store:
`Exceptions::ArgumentOutOfRangeException` and `Exceptions::FileException`. -/
inductive MEErr where
  | argumentOutOfRange
  | fileFormat
  deriving Repr, DecidableEq

/-- `MotionExtractor::setSensitivity` (source lines 296-303). -/
def setSensitivity (newSens : Int) (st : MEState) : Except MEErr MEState :=
  if newSens < 1 ∨ 127 < newSens then .error .argumentOutOfRange
  else .ok (MEState.reset { st with motionThreshold := newSens })

/-- `MotionExtractor::setSettleTime` (source lines 305-313);
`stableCap = (unsigned int)ceil(newTime * fps)`. -/
def setSettleTime (newTime : ℚ) (st : MEState) : Except MEErr MEState :=
  if newTime < 1 ∨ 60 < newTime then .error .argumentOutOfRange
  else .ok (MEState.reset { st with stableCap := (Int.ceil (newTime * st.fps)).toNat })

/-- `MotionExtractor::setErosion` (source lines 315-322). -/
def setErosion (newErosion : Int) (st : MEState) : Except MEErr MEState :=
  if newErosion < 0 ∨ 8 < newErosion then .error .argumentOutOfRange
  else .ok (MEState.reset { st with erosionLevel := newErosion })

/-- `MotionExtractor::getSensitivity` (source lines 324-327). -/
def getSensitivity (st : MEState) : Int := st.motionThreshold

/-- `MotionExtractor::getSettleTime` (source lines 329-332). -/
def getSettleTime (st : MEState) : ℚ := (st.stableCap : ℚ) / st.fps

/-- `MotionExtractor::getErosion` (source lines 334-337). -/
def getErosion (st : MEState) : Int := st.erosionLevel

/-- The three-field Json record used by `save`/`load`; a missing key decodes
as a null `Json::Value` (here `none`). -/
structure JsonParams where
  sensitivity : Option Int
  settleTime : Option ℚ
  erosionLevel : Option Int
  deriving Repr, DecidableEq

/-- `MotionExtractor::save` (source lines 339-344). -/
def save (st : MEState) : JsonParams :=
  { sensitivity := some (getSensitivity st),
    settleTime := some (getSettleTime st),
    erosionLevel := some (getErosion st) }

/-- `MotionExtractor::load` (source lines 346-364): throw `FileException`
when a key is null or a decoded value fails the setters' range checks
(both throws happen before any mutation), otherwise apply the three
setters in order. -/
def load (p : JsonParams) (st : MEState) : Except MEErr MEState :=
  match p.sensitivity, p.settleTime, p.erosionLevel with
  | some si, some td, some ei =>
      if si < 1 ∨ 127 < si ∨ td < 1 ∨ 60 < td ∨ ei < 0 ∨ 8 < ei then
        .error .fileFormat
      else
        match setSensitivity si st with
        | .error e => .error e
        | .ok s1 =>
          match setSettleTime td s1 with
          | .error e => .error e
          | .ok s2 => setErosion ei s2
  | _, _, _ => .error .fileFormat

/-- The operations of the public interface that mutate an instance.  A
thrown exception leaves the C++ object unmodified, so a failing operation
maps the state to itself. -/
inductive MEOp where
  | gen (frame : List Pix)
  | doReset
  | setSens (v : Int)
  | setSettle (t : ℚ)
  | setEro (v : Int)
  | doLoad (p : JsonParams)

/-- Apply one interface operation to the state. -/
def applyOp : MEOp → MEState → MEState
  | .gen frame, st => generateMotionMask frame st
  | .doReset, st => st.reset
  | .setSens v, st => match setSensitivity v st with | .ok s => s | .error _ => st
  | .setSettle t, st => match setSettleTime t st with | .ok s => s | .error _ => st
  | .setEro v, st => match setErosion v st with | .ok s => s | .error _ => st
  | .doLoad p, st => match load p st with | .ok s => s | .error _ => st

/-- The neighbour count as claim C1 describes it: over the 8 distinct
neighbouring pixels (left, right, the three in the row above and the three
in the row below), restricted to neighbours with both coordinates strictly
positive, counting those whose indicator is on. -/
def claimAdjacents (W : Nat) (mask : List Pix) (x y : Int) : Nat :=
  ([(-1, 0), (1, 0), (-1, -1), (0, -1), (1, -1), (-1, 1), (0, 1), (1, 1)] :
      List (Int × Int)).countP fun d =>
    decide (0 < x + d.1) && decide (0 < y + d.2) &&
    decide (0 < ind mask ((y + d.2) * W + (x + d.1)))

/-- 4x4 test mask: indicator on at (1,1), (2,1), (3,1) (the row above) and at
the probed pixel (2,2); the row below (2,2) is entirely off. -/
def c1mask : List Pix :=
  [(0,0,0), (0,0,0), (0,0,0), (0,0,0),
   (0,0,0), (255,0,0), (255,0,0), (255,0,0),
   (0,0,0), (0,0,0), (255,0,0), (0,0,0),
   (0,0,0), (0,0,0), (0,0,0), (0,0,0)]


def c4state : MEState :=
  { imageWidth := 1, imageHeight := 1, srcWidth := 2, fps := 2,
    motionThreshold := 26, stableCap := 2, erosionLevel := 0,
    currentImage := [(100,100,100)], refImage := [(0,0,0)], motionMask := [(9,7,8)],
    currentStableTimes := [0], stableRecords := [2], firstFrame := false }

def c4frame : List Pix := List.replicate 4 (100,100,100)

/-- 2x2 test frame for the downscaler. -/
def c5frame : List Pix := [(1,2,3),(3,4,5),(5,6,7),(7,8,9)]
/-- Reachable-state invariant of claim C6: every stability record is at most
`stableCap` (out-of-range reads see the default 0, which also satisfies it). -/
def RecInv (st : MEState) : Prop := ∀ i, st.stableRecords.getD i 0 ≤ st.stableCap


/-!
## Helper lemmas
-/

/-!
## Sanity checks on concrete inputs
-/

example : downscale [(1,2,3),(3,4,5),(5,6,7),(7,8,9)] 1 1 2 = [(4,5,6)] := by decide

example : downscale [(1,2,3),(3,4,5),(100,0,0),
                     (5,6,7),(7,8,9),(100,0,0),
                     (100,0,0),(100,0,0),(100,0,0)] 1 1 3 = [(4,5,6)] := by decide

example : adjacents 4 c1mask 2 2 10 = 6 := by decide

example : claimAdjacents 4 c1mask 2 2 = 3 := by decide

example : (getPixD (erodePass 4 5 c1mask) 10).1 = 255 := by decide

example : (genN c4frame 2 c4state).motionMask = [(255,7,8)] := by decide

example : (genN c4frame 3 c4state).motionMask = [(0,7,8)] := by decide

example : (genN c4frame 3 c4state).refImage = [(100,100,100)] := by decide

example : (generateMotionMask c4frame { c4state with firstFrame := true }).refImage
    = [(100,100,100)] := by decide

theorem getD_map_range {α : Type} (f : Nat → α) (d : α) {i n : Nat} (h : i < n) :
    ((List.range n).map f).getD i d = f i := by
  rw [List.getD_eq_getElem _ _ (by simpa using h)]
  simp

theorem getD_map_range_ge {α : Type} (f : Nat → α) (d : α) {i n : Nat} (h : n ≤ i) :
    ((List.range n).map f).getD i d = d :=
  List.getD_eq_default _ _ (by simpa using h)

theorem getPixD_map_range (f : Nat → Pix) {i n : Nat} (h : i < n) :
    getPixD ((List.range n).map f) i = f i :=
  getD_map_range f _ h

theorem getPixD_map_range_ge (f : Nat → Pix) {i n : Nat} (h : n ≤ i) :
    getPixD ((List.range n).map f) i = (0, 0, 0) :=
  getD_map_range_ge f _ h

theorem getD_replicate' {α : Type} (d : α) {k i : Nat} :
    (List.replicate k d).getD i d = d := by
  rcases Nat.lt_or_ge i k with h | h
  · rw [List.getD_eq_getElem _ _ (by simpa using h), List.getElem_replicate]
  · exact List.getD_eq_default _ _ (by simpa using h)

/-- A successful `load` applies all three parameters through the setters. -/
theorem load_ok (st : MEState) (si : Int) (td : ℚ) (ei : Int)
    (h1 : ¬(si < 1 ∨ 127 < si)) (h2 : ¬(td < 1 ∨ 60 < td)) (h3 : ¬(ei < 0 ∨ 8 < ei)) :
    load ⟨some si, some td, some ei⟩ st
      = .ok (MEState.reset
          { st with motionThreshold := si,
                    stableCap := (Int.ceil (td * st.fps)).toNat,
                    erosionLevel := ei }) := by
  push_neg at h1 h2 h3
  simp only [load]
  rw [if_neg (by push_neg; exact ⟨h1.1, h1.2, h2.1, h2.2, h3.1, h3.2⟩)]
  rw [setSensitivity, if_neg (by omega)]
  dsimp only
  rw [setSettleTime, if_neg (by push_neg; exact h2)]
  dsimp only
  rw [setErosion, if_neg (by omega)]
  simp [MEState.reset]

/-!
## Claim theorems
-/

/-- C3: `pixelIsDifferent a b` is true iff some channel's absolute difference
exceeds the sensitivity, and false iff every channel's absolute difference is
at most the sensitivity — so a difference exactly equal to the sensitivity
does not make the pixels different. -/
theorem C3_pixelIsDifferent_iff (th : Int) (a b : Pix) :
    (pixelIsDifferent a b th = true ↔
      ∃ c : Fin 3, th < |(chan a c : Int) - (chan b c : Int)|) ∧
    (pixelIsDifferent a b th = false ↔
      ∀ c : Fin 3, |(chan a c : Int) - (chan b c : Int)| ≤ th) := by
  constructor
  · simp only [pixelIsDifferent, Bool.or_eq_true, decide_eq_true_eq]
    constructor
    · rintro ((h | h) | h)
      · exact ⟨0, by simpa [chan] using h⟩
      · exact ⟨1, by simpa [chan] using h⟩
      · exact ⟨2, by simpa [chan] using h⟩
    · rintro ⟨c, hc⟩
      fin_cases c <;> simp only [chan, Fin.val] at hc <;> norm_num at hc <;>
        first
          | exact Or.inl (Or.inl hc)
          | exact Or.inl (Or.inr hc)
          | exact Or.inr hc
  · simp only [pixelIsDifferent, Bool.or_eq_false_iff, decide_eq_false_iff_not, not_lt]
    constructor
    · rintro ⟨⟨h1, h2⟩, h3⟩ c
      fin_cases c <;> simpa [chan]
    · intro h
      exact ⟨⟨by simpa [chan] using h 0, by simpa [chan] using h 1⟩,
             by simpa [chan] using h 2⟩

/-- C10: straight after construction the instance is usable with the
undocumented defaults: sensitivity 26, erosion 5, `stableCap = ceil(fps)`
(one second of frames), hence settle time `ceil(fps) / fps`. -/
theorem C10_constructor_defaults (w h : Nat) (fps : ℚ) (b : Bool) (hfps : 0 < fps) :
    getSensitivity (mkMotionExtractor w h fps b) = 26 ∧
    getErosion (mkMotionExtractor w h fps b) = 5 ∧
    ((mkMotionExtractor w h fps b).stableCap : Int) = Int.ceil fps ∧
    getSettleTime (mkMotionExtractor w h fps b) = (Int.ceil fps : ℚ) / fps := by
  have hceil : (0 : Int) ≤ Int.ceil fps := le_of_lt (Int.ceil_pos.mpr hfps)
  refine ⟨rfl, rfl, ?_, ?_⟩
  · simp [mkMotionExtractor, MEState.reset, Int.toNat_of_nonneg hceil]
  · simp only [getSettleTime, mkMotionExtractor, MEState.reset]
    rw [show (((Int.ceil fps).toNat : ℚ)) = ((Int.ceil fps : Int) : ℚ) by
      exact_mod_cast congrArg Int.cast (Int.toNat_of_nonneg hceil)]

theorem C10_constructor_defaults_witness :
    (0 : ℚ) < 30 ∧
    (getSensitivity (mkMotionExtractor 640 480 30 false) = 26 ∧
     getErosion (mkMotionExtractor 640 480 30 false) = 5 ∧
     ((mkMotionExtractor 640 480 30 false).stableCap : Int) = Int.ceil (30 : ℚ) ∧
     getSettleTime (mkMotionExtractor 640 480 30 false) = (Int.ceil (30 : ℚ) : ℚ) / 30) :=
  ⟨by norm_num, C10_constructor_defaults 640 480 30 false (by norm_num)⟩

/-- C8: each setter fails with ArgumentOutOfRange exactly outside its
documented range; a failing call leaves the state unmodified (`applyOp`
returns the state unchanged, as the throw happens before any mutation); a
successful call stores the new value and calls `reset`. -/
theorem C8_setters (st : MEState) (v : Int) (t : ℚ) (e : Int) :
    (setSensitivity v st = .error .argumentOutOfRange ↔ v < 1 ∨ 127 < v) ∧
    ((v < 1 ∨ 127 < v) → applyOp (.setSens v) st = st) ∧
    (¬(v < 1 ∨ 127 < v) →
      setSensitivity v st = .ok (MEState.reset { st with motionThreshold := v })) ∧
    (setSettleTime t st = .error .argumentOutOfRange ↔ t < 1 ∨ 60 < t) ∧
    ((t < 1 ∨ 60 < t) → applyOp (.setSettle t) st = st) ∧
    (¬(t < 1 ∨ 60 < t) →
      setSettleTime t st
        = .ok (MEState.reset { st with stableCap := (Int.ceil (t * st.fps)).toNat })) ∧
    (setErosion e st = .error .argumentOutOfRange ↔ e < 0 ∨ 8 < e) ∧
    ((e < 0 ∨ 8 < e) → applyOp (.setEro e) st = st) ∧
    (¬(e < 0 ∨ 8 < e) →
      setErosion e st = .ok (MEState.reset { st with erosionLevel := e })) := by
  refine ⟨?_, ?_, ?_, ?_, ?_, ?_, ?_, ?_, ?_⟩
  · unfold setSensitivity; split <;> simp_all
  · intro hc; simp [applyOp, setSensitivity, hc]
  · intro hc; simp [setSensitivity, hc]
  · unfold setSettleTime; split <;> simp_all
  · intro hc; simp [applyOp, setSettleTime, hc]
  · intro hc; simp [setSettleTime, hc]
  · unfold setErosion; split <;> simp_all
  · intro hc; simp [applyOp, setErosion, hc]
  · intro hc; simp [setErosion, hc]

theorem C8_setters_witness :
    (setSensitivity 200 c4state = .error .argumentOutOfRange ↔
      (200 : Int) < 1 ∨ 127 < (200 : Int)) ∧
    setSensitivity 50 c4state = .ok (MEState.reset { c4state with motionThreshold := 50 }) ∧
    setSettleTime 5 c4state
      = .ok (MEState.reset { c4state with stableCap := (Int.ceil ((5 : ℚ) * c4state.fps)).toNat }) ∧
    setErosion 3 c4state = .ok (MEState.reset { c4state with erosionLevel := 3 }) ∧
    applyOp (.setEro 9) c4state = c4state :=
  ⟨(C8_setters c4state 200 5 3).1,
   (C8_setters c4state 50 5 3).2.2.1 (by norm_num),
   (C8_setters c4state 50 5 3).2.2.2.2.2.1 (by norm_num),
   (C8_setters c4state 50 5 3).2.2.2.2.2.2.2.2 (by norm_num),
   (C8_setters c4state 50 5 9).2.2.2.2.2.2.2.1 (by norm_num)⟩

/-- C2: when the first-frame flag is armed — as it is after construction and
after `reset()` — the next `generateMotionMask` call forces the mask's
indicator channel to zero everywhere regardless of frame content and copies
the downscaled frame into both the tracked image and the reference image. -/
theorem C2_first_frame (st : MEState) (frame : List Pix) (h : st.firstFrame = true) :
    (∀ w hh : Nat, ∀ fps : ℚ, ∀ b, (mkMotionExtractor w hh fps b).firstFrame = true) ∧
    (∀ s : MEState, s.reset.firstFrame = true) ∧
    (generateMotionMask frame st).currentImage
      = downscale frame st.imageWidth st.imageHeight st.srcWidth ∧
    (generateMotionMask frame st).refImage
      = downscale frame st.imageWidth st.imageHeight st.srcWidth ∧
    ∀ i, (getPixD (generateMotionMask frame st).motionMask i).1 = 0 := by
  refine ⟨fun _ _ _ _ => rfl, fun _ => rfl, ?_, ?_, ?_⟩
  · simp [generateMotionMask, h]
  · simp [generateMotionMask, h]
  · intro i
    simp only [generateMotionMask, h, if_true]
    rcases Nat.lt_or_ge i (st.imageWidth * st.imageHeight) with hi | hi
    · rw [getPixD_map_range _ hi]
    · rw [getPixD_map_range_ge _ hi]

theorem C2_first_frame_witness :
    (generateMotionMask c4frame { c4state with firstFrame := true }).currentImage
      = downscale c4frame 1 1 2 ∧
    (generateMotionMask c4frame { c4state with firstFrame := true }).refImage
      = downscale c4frame 1 1 2 ∧
    (getPixD (generateMotionMask c4frame { c4state with firstFrame := true }).motionMask 0).1
      = 0 :=
  ⟨(C2_first_frame { c4state with firstFrame := true } c4frame rfl).2.2.1,
   (C2_first_frame { c4state with firstFrame := true } c4frame rfl).2.2.2.1,
   (C2_first_frame { c4state with firstFrame := true } c4frame rfl).2.2.2.2 0⟩

/-- C7: `load` fails with the file-format error exactly when a key is absent
or a decoded value fails its setter's range check; any failing load leaves
the state unmodified (both throws happen before any setter runs); a
successful load applies all three parameters through the setters. -/
theorem C7_load (st : MEState) (osi : Option Int) (otd : Option ℚ) (oei : Option Int) :
    (load ⟨osi, otd, oei⟩ st = .error .fileFormat ↔
      osi = none ∨ otd = none ∨ oei = none ∨
      (∃ si, osi = some si ∧ (si < 1 ∨ 127 < si)) ∨
      (∃ td, otd = some td ∧ (td < 1 ∨ 60 < td)) ∨
      (∃ ei, oei = some ei ∧ (ei < 0 ∨ 8 < ei))) ∧
    (∀ e, load ⟨osi, otd, oei⟩ st = .error e → applyOp (.doLoad ⟨osi, otd, oei⟩) st = st) ∧
    (∀ si td ei, osi = some si → otd = some td → oei = some ei →
      ¬(si < 1 ∨ 127 < si) → ¬(td < 1 ∨ 60 < td) → ¬(ei < 0 ∨ 8 < ei) →
      load ⟨osi, otd, oei⟩ st = .ok (MEState.reset
        { st with motionThreshold := si,
                  stableCap := (Int.ceil (td * st.fps)).toNat,
                    erosionLevel := ei })) := by
  refine ⟨?_, ?_, ?_⟩
  · rcases osi with _ | si
    · simp [load]
    rcases otd with _ | td
    · simp [load]
    rcases oei with _ | ei
    · simp [load]
    by_cases hg : si < 1 ∨ 127 < si ∨ td < 1 ∨ 60 < td ∨ ei < 0 ∨ 8 < ei
    · have hload : load ⟨some si, some td, some ei⟩ st = .error .fileFormat := by
        simp only [load]
        rw [if_pos hg]
      rw [hload]
      refine iff_of_true rfl ?_
      rcases hg with h | h | h | h | h | h
      · exact Or.inr (Or.inr (Or.inr (Or.inl ⟨si, rfl, Or.inl h⟩)))
      · exact Or.inr (Or.inr (Or.inr (Or.inl ⟨si, rfl, Or.inr h⟩)))
      · exact Or.inr (Or.inr (Or.inr (Or.inr (Or.inl ⟨td, rfl, Or.inl h⟩))))
      · exact Or.inr (Or.inr (Or.inr (Or.inr (Or.inl ⟨td, rfl, Or.inr h⟩))))
      · exact Or.inr (Or.inr (Or.inr (Or.inr (Or.inr ⟨ei, rfl, Or.inl h⟩))))
      · exact Or.inr (Or.inr (Or.inr (Or.inr (Or.inr ⟨ei, rfl, Or.inr h⟩))))
    · push_neg at hg
      obtain ⟨g1, g2, g3, g4, g5, g6⟩ := hg
      rw [load_ok st si td ei (by omega) (by push_neg; exact ⟨g3, g4⟩) (by omega)]
      refine iff_of_false (by simp) ?_
      rintro (h | h | h | ⟨si', hsi, h⟩ | ⟨td', htd, h⟩ | ⟨ei', hei, h⟩)
      · exact Option.noConfusion h
      · exact Option.noConfusion h
      · exact Option.noConfusion h
      · obtain rfl : si = si' := Option.some.inj hsi
        omega
      · obtain rfl : td = td' := Option.some.inj htd
        rcases h with h | h <;> linarith
      · obtain rfl : ei = ei' := Option.some.inj hei
        omega
  · intro e he
    simp [applyOp, he]
  · intro si td ei hsi htd hei hr1 hr2 hr3
    subst hsi; subst htd; subst hei
    exact load_ok st si td ei hr1 hr2 hr3

theorem C7_load_witness :
    load ⟨some 50, some 5, some 3⟩ c4state
      = .ok (MEState.reset
          { c4state with motionThreshold := 50,
                         stableCap := (Int.ceil ((5 : ℚ) * c4state.fps)).toNat,
                         erosionLevel := 3 }) :=
  (C7_load c4state (some 50) (some 5) (some 3)).2.2 50 5 3 rfl rfl rfl
    (by norm_num) (by norm_num) (by norm_num)


/-- C9: for every valid parameter state (each of the three parameters within
its setter's documented range), `save` followed by `load` into a fresh
instance constructed with the same fps reproduces all three getter values. -/
theorem C9_roundtrip (st : MEState) (w h : Nat) (b : Bool)
    (hfps : 0 < st.fps)
    (hs1 : 1 ≤ getSensitivity st) (hs2 : getSensitivity st ≤ 127)
    (ht1 : 1 ≤ getSettleTime st) (ht2 : getSettleTime st ≤ 60)
    (he1 : 0 ≤ getErosion st) (he2 : getErosion st ≤ 8) :
    ∃ st2, load (save st) (mkMotionExtractor w h st.fps b) = .ok st2 ∧
      getSensitivity st2 = getSensitivity st ∧
      getSettleTime st2 = getSettleTime st ∧
      getErosion st2 = getErosion st := by
  have hfresh : (mkMotionExtractor w h st.fps b).fps = st.fps := rfl
  have hload := load_ok (mkMotionExtractor w h st.fps b)
    (getSensitivity st) (getSettleTime st) (getErosion st)
    (by push_neg; exact ⟨hs1, hs2⟩) (by push_neg; exact ⟨ht1, ht2⟩)
    (by push_neg; exact ⟨he1, he2⟩)
  rw [hfresh] at hload
  refine ⟨_, hload, rfl, ?_, rfl⟩
  simp only [getSettleTime, MEState.reset]
  rw [div_mul_cancel₀ _ (ne_of_gt hfps), Int.ceil_natCast, Int.toNat_natCast]

theorem C9_roundtrip_witness :
    (0 : ℚ) < c4state.fps ∧
    ∃ st2, load (save c4state) (mkMotionExtractor 2 2 c4state.fps false) = .ok st2 ∧
      getSensitivity st2 = getSensitivity c4state ∧
      getSettleTime st2 = getSettleTime c4state ∧
      getErosion st2 = getErosion c4state :=
  ⟨by norm_num [c4state], C9_roundtrip c4state 2 2 false
    (by norm_num [c4state])
    (by norm_num [getSensitivity, c4state]) (by norm_num [getSensitivity, c4state])
    (by norm_num [getSettleTime, c4state]) (by norm_num [getSettleTime, c4state])
    (by norm_num [getErosion, c4state]) (by norm_num [getErosion, c4state])⟩


theorem RecInv_reset (st : MEState) : RecInv st.reset := by
  intro i
  simp only [MEState.reset]
  rw [getD_replicate']
  exact Nat.zero_le _

/-- C6: every stability record is at most `stableCap` after construction and
after every interface operation: records are only rewritten to
`min(timer, stableCap)` on promotion, and `reset` (also called by every
successful setter and by `load`) zeroes them all. -/
theorem C6_records_le_cap :
    (∀ w h : Nat, ∀ fps : ℚ, ∀ b, RecInv (mkMotionExtractor w h fps b)) ∧
    (∀ op st, RecInv st → RecInv (applyOp op st)) := by
  constructor
  · intro w h fps b
    exact RecInv_reset _
  · rintro (frame | _ | v | t | e | p) st hinv
    · -- generateMotionMask
      intro i
      simp only [applyOp, generateMotionMask]
      split
      · exact hinv i
      · simp only
        rcases Nat.lt_or_ge i (st.imageWidth * st.imageHeight) with hi | hi
        · rw [getD_map_range _ _ hi]
          simp only [record2At, record2]
          split
          · exact min_le_right _ _
          · exact hinv i
        · rw [getD_map_range_ge _ _ hi]
          exact Nat.zero_le _
    · exact RecInv_reset st
    · simp only [applyOp, setSensitivity]
      by_cases hc : v < 1 ∨ 127 < v
      · rw [if_pos hc]
        exact hinv
      · rw [if_neg hc]
        exact RecInv_reset _
    · simp only [applyOp, setSettleTime]
      by_cases hc : t < 1 ∨ 60 < t
      · rw [if_pos hc]
        exact hinv
      · rw [if_neg hc]
        exact RecInv_reset _
    · simp only [applyOp, setErosion]
      by_cases hc : e < 0 ∨ 8 < e
      · rw [if_pos hc]
        exact hinv
      · rw [if_neg hc]
        exact RecInv_reset _
    · simp only [applyOp]
      rcases hl : load p st with e | s
      · exact hinv
      · rcases p with ⟨osi, otd, oei⟩
        rcases osi with _ | si
        · simp [load] at hl
        rcases otd with _ | td
        · simp [load] at hl
        rcases oei with _ | ei
        · simp [load] at hl
        by_cases hg : si < 1 ∨ 127 < si ∨ td < 1 ∨ 60 < td ∨ ei < 0 ∨ 8 < ei
        · simp only [load] at hl
          rw [if_pos hg] at hl
          exact absurd hl (by simp)
        · push_neg at hg
          obtain ⟨g1, g2, g3, g4, g5, g6⟩ := hg
          rw [load_ok st si td ei (by omega) (by push_neg; exact ⟨g3, g4⟩) (by omega)] at hl
          obtain rfl : _ = s := Except.ok.inj hl
          exact RecInv_reset _

theorem C6_records_le_cap_witness :
    RecInv c4state ∧ RecInv (applyOp (.gen c4frame) c4state) :=
  ⟨fun i => by
     rcases Nat.lt_or_ge i 1 with hi | hi
     · interval_cases i
       · exact le_refl 2
     · rw [List.getD_eq_default _ _ (by simpa using hi)]
       exact Nat.zero_le _,
   C6_records_le_cap.2 (.gen c4frame) c4state (fun i => by
     rcases Nat.lt_or_ge i 1 with hi | hi
     · interval_cases i
       · exact le_refl 2
     · rw [List.getD_eq_default _ _ (by simpa using hi)]
       exact Nat.zero_le _)⟩

/-- C1 (code-bug evidence): at the 4x4 mask `c1mask` with erosion level 5 the
pixel at (2,2) is on and has exactly 3 of its 8 distinct neighbours on (the
three in the row above; the row below it is entirely off), so by the claim it
must be turned off (3 < 5); the erosion pass nevertheless keeps it on,
because the offset table reuses the row-above byte offset `upOne` for the
three `y + 1` entries and therefore counts the row above twice, giving an
`adjacents` count of 6. -/
theorem C1_erosion_divergence :
    claimAdjacents 4 c1mask 2 2 = 3 ∧
    adjacents 4 c1mask 2 2 10 = 6 ∧
    (getPixD c1mask 10).1 = 255 ∧
    (getPixD (erodePass 4 5 c1mask) 10).1 = 255 :=
  ⟨by decide, by decide, by decide, by decide⟩

/-!
## Per-pixel lemmas for the convergence claim (C4)
-/

theorem pixelIsDifferent_self {th : Int} (hth : 0 ≤ th) (p : Pix) :
    pixelIsDifferent p p th = false := by
  simp only [pixelIsDifferent, Bool.or_eq_false_iff, decide_eq_false_iff_not, not_lt,
    sub_self, abs_zero]
  exact ⟨⟨hth, hth⟩, hth⟩

theorem nudge_int (t c : Nat) :
    (nudge t c : Int) = (c : Int) + mathSign ((t : Int) - c) := by
  unfold nudge
  rw [Int.toNat_of_nonneg]
  unfold mathSign
  split
  · omega
  · split <;> omega

theorem abs_sub_nudge_le (t c : Nat) :
    |(t : Int) - nudge t c| ≤ |(t : Int) - c| := by
  rw [nudge_int]
  unfold mathSign
  split
  · rename_i h
    rw [abs_of_pos h, abs_of_nonneg (by omega)]
    omega
  · split
    · rename_i h
      rw [abs_of_neg h, abs_of_nonpos (by omega)]
      omega
    · simp

theorem pixelIsDifferent_nudgePix {s c : Pix} {th : Int}
    (h : pixelIsDifferent s c th = false) :
    pixelIsDifferent s (nudgePix s c) th = false := by
  simp only [pixelIsDifferent, nudgePix, Bool.or_eq_false_iff, decide_eq_false_iff_not,
    not_lt] at h ⊢
  obtain ⟨⟨h1, h2⟩, h3⟩ := h
  exact ⟨⟨le_trans (abs_sub_nudge_le _ _) h1, le_trans (abs_sub_nudge_le _ _) h2⟩,
         le_trans (abs_sub_nudge_le _ _) h3⟩

/-- After any step the tracked pixel is never significantly different from
the (constant) sample: a snap makes it equal, a nudge shrinks every
channel's distance. -/
theorem track1_not_diff {th : Int} (hth : 0 ≤ th) (s c : Pix) :
    pixelIsDifferent s (track1 th s c) th = false := by
  unfold track1
  split
  · exact pixelIsDifferent_self hth s
  · rename_i h
    exact pixelIsDifferent_nudgePix (by simpa using h)

theorem nudgePix_self (s : Pix) : nudgePix s s = s := by
  unfold nudgePix nudge mathSign
  simp

/-- The step keeps a pixel that already tracks its sample and reference
unchanged in the image components. -/
theorem pixStep_fixed {th : Int} (hth : 0 ≤ th) (cap : Nat) (s : Pix) (q : PixState)
    (hc : q.c = s) (hr : q.r = s) :
    (pixStep th cap s q).c = s ∧ (pixStep th cap s q).r = s := by
  have hc2 : track1 th s q.c = s := by
    unfold track1
    rw [hc, pixelIsDifferent_self hth, nudgePix_self]
    simp
  constructor
  · exact hc2
  · simp only [pixStep, ref2]
    rw [hc2, hr]
    simp

theorem iter_not_diff {th : Int} (hth : 0 ≤ th) (cap : Nat) (s : Pix) (q : PixState)
    (k : Nat) :
    pixelIsDifferent s ((pixStep th cap s)^[k + 1] q).c th = false := by
  rw [Function.iterate_succ_apply']
  exact track1_not_diff hth s _

theorem pixStep_t_le (th : Int) (cap : Nat) (s : Pix) (q : PixState) :
    (pixStep th cap s q).t ≤ q.t + 1 := by
  simp only [pixStep, timer1]
  split
  · exact Nat.zero_le _
  · exact Nat.mod_le _ _

/-- Timer recurrence: once no wrap is pending, every step after the first
increments the timer by exactly one (no snap can occur after step one). -/
theorem iter_t_formula {th : Int} (hth : 0 ≤ th) (cap : Nat) (s : Pix) (q : PixState)
    {N : Nat} (hN : q.t + N < 4294967296) :
    ∀ k, k + 1 ≤ N →
      ((pixStep th cap s)^[k + 1] q).t = ((pixStep th cap s)^[1] q).t + k := by
  intro k
  induction k with
  | zero => intro _; rfl
  | succ k ih =>
    intro hk
    have hprev := ih (by omega)
    have ht1 : ((pixStep th cap s)^[1] q).t ≤ q.t + 1 := by
      rw [Function.iterate_one]
      exact pixStep_t_le th cap s q
    have hnd := iter_not_diff hth cap s q k
    rw [show k + 1 + 1 = (k + 1) + 1 from rfl, Function.iterate_succ_apply']
    simp only [pixStep, timer1]
    rw [hnd]
    simp only [Bool.false_eq_true, if_false]
    rw [hprev]
    rw [Nat.mod_eq_of_lt (by omega)]
    omega

theorem iter_rc_le {th : Int} {cap : Nat} {s : Pix} {q : PixState}
    (hrc : q.rc ≤ cap) (k : Nat) : ((pixStep th cap s)^[k] q).rc ≤ cap := by
  induction k with
  | zero => exact hrc
  | succ k ih =>
    rw [Function.iterate_succ_apply']
    simp only [pixStep, record2]
    split
    · exact min_le_right _ _
    · exact ih

/-- After `stableCap + 2` or more steps the final step promotes, leaving the
reference pixel equal to the tracked pixel: the timer grew to at least
`stableCap + 1` while the record never exceeds `stableCap`. -/
theorem iter_promoted {th : Int} (hth : 0 ≤ th) (cap : Nat) (s : Pix) (q : PixState)
    {N : Nat} (hN : q.t + N < 4294967296) (hrc : q.rc ≤ cap) (hcap : cap + 2 ≤ N) :
    ((pixStep th cap s)^[N] q).r = ((pixStep th cap s)^[N] q).c := by
  obtain ⟨m, rfl⟩ : ∃ m, N = m + 2 := ⟨N - 2, by omega⟩
  have ht : ((pixStep th cap s)^[m + 1 + 1] q).t = ((pixStep th cap s)^[1] q).t + (m + 1) :=
    iter_t_formula hth cap s q hN (m + 1) (by omega)
  rw [show m + 2 = (m + 1) + 1 from rfl, Function.iterate_succ_apply'] at ht ⊢
  set qp := (pixStep th cap s)^[m + 1] q with hqp
  have hrcp : qp.rc ≤ cap := iter_rc_le hrc (m + 1)
  have hcond : qp.rc < timer1 th s qp.c qp.t := by
    have htt : (pixStep th cap s qp).t = timer1 th s qp.c qp.t := rfl
    rw [htt] at ht
    omega
  simp only [pixStep, ref2]
  rw [if_pos hcond]

theorem iter_fixed {th : Int} (hth : 0 ≤ th) (cap : Nat) (s : Pix) (q : PixState)
    (hc : q.c = s) (hr : q.r = s) (k : Nat) :
    ((pixStep th cap s)^[k] q).c = s ∧ ((pixStep th cap s)^[k] q).r = s := by
  induction k with
  | zero => exact ⟨hc, hr⟩
  | succ k ih =>
    rw [Function.iterate_succ_apply']
    exact pixStep_fixed hth cap s _ ih.1 ih.2

/-!
## State-level bridge lemmas
-/

theorem genMask_firstFrame (frame : List Pix) (st : MEState) :
    (generateMotionMask frame st).firstFrame = false := by
  simp only [generateMotionMask]
  split
  · rfl
  · rename_i h
    simpa using h

theorem genMask_params (frame : List Pix) (st : MEState) :
    (generateMotionMask frame st).imageWidth = st.imageWidth ∧
    (generateMotionMask frame st).imageHeight = st.imageHeight ∧
    (generateMotionMask frame st).srcWidth = st.srcWidth ∧
    (generateMotionMask frame st).motionThreshold = st.motionThreshold ∧
    (generateMotionMask frame st).stableCap = st.stableCap ∧
    (generateMotionMask frame st).erosionLevel = st.erosionLevel := by
  simp only [generateMotionMask]
  split <;> exact ⟨rfl, rfl, rfl, rfl, rfl, rfl⟩

theorem pixStep_at (st : MEState) (dsc : List Pix) (i : Nat) :
    pixStep st.motionThreshold st.stableCap (getPixD dsc i) (pixAt st i)
      = { c := track1At st dsc i, r := ref2At st dsc i, t := timer1At st dsc i,
          rc := record2At st dsc i } := rfl

theorem genMask_pixAt (frame : List Pix) (st : MEState) (hff : st.firstFrame = false)
    {i : Nat} (hi : i < st.imageWidth * st.imageHeight) :
    pixAt (generateMotionMask frame st) i
      = pixStep st.motionThreshold st.stableCap
          (getPixD (downscale frame st.imageWidth st.imageHeight st.srcWidth) i)
          (pixAt st i) := by
  rw [pixStep_at]
  simp only [generateMotionMask, hff, Bool.false_eq_true, if_false, pixAt]
  rw [getPixD_map_range _ hi, getPixD_map_range _ hi, getD_map_range _ _ hi,
    getD_map_range _ _ hi]

theorem genN_params (frame : List Pix) (k : Nat) (st : MEState) :
    (genN frame k st).imageWidth = st.imageWidth ∧
    (genN frame k st).imageHeight = st.imageHeight ∧
    (genN frame k st).srcWidth = st.srcWidth ∧
    (genN frame k st).motionThreshold = st.motionThreshold ∧
    (genN frame k st).stableCap = st.stableCap ∧
    (genN frame k st).erosionLevel = st.erosionLevel := by
  induction k with
  | zero => exact ⟨rfl, rfl, rfl, rfl, rfl, rfl⟩
  | succ k ih =>
    obtain ⟨h1, h2, h3, h4, h5, h6⟩ := ih
    obtain ⟨g1, g2, g3, g4, g5, g6⟩ := genMask_params frame (genN frame k st)
    exact ⟨g1.trans h1, g2.trans h2, g3.trans h3, g4.trans h4, g5.trans h5, g6.trans h6⟩

theorem genN_firstFrame (frame : List Pix) (k : Nat) (st : MEState) (hk : 1 ≤ k) :
    (genN frame k st).firstFrame = false := by
  obtain ⟨m, rfl⟩ : ∃ m, k = m + 1 := ⟨k - 1, by omega⟩
  exact genMask_firstFrame frame _

theorem genN_pixAt (frame : List Pix) (st : MEState) (hff : st.firstFrame = false)
    (k : Nat) {i : Nat} (hi : i < st.imageWidth * st.imageHeight) :
    pixAt (genN frame k st) i
      = (pixStep st.motionThreshold st.stableCap
          (getPixD (downscale frame st.imageWidth st.imageHeight st.srcWidth) i))^[k]
          (pixAt st i) := by
  induction k with
  | zero => rfl
  | succ k ih =>
    rw [Function.iterate_succ_apply', ← ih]
    obtain ⟨h1, h2, h3, h4, h5, _⟩ := genN_params frame k st
    have hf : (genN frame k st).firstFrame = false := by
      cases k with
      | zero => exact hff
      | succ m => exact genN_firstFrame frame (m + 1) st (by omega)
    have hgen := genMask_pixAt frame (genN frame k st) hf
      (i := i) (by rw [h1, h2]; exact hi)
    rw [h1, h2, h3, h4, h5] at hgen
    exact hgen

theorem genN_shift (frame : List Pix) (k : Nat) (st : MEState) :
    genN frame (k + 1) st = genN frame k (generateMotionMask frame st) := by
  induction k with
  | zero => rfl
  | succ k ih =>
    show generateMotionMask frame (genN frame (k + 1) st)
      = generateMotionMask frame (genN frame k (generateMotionMask frame st))
    rw [ih]

theorem genMask_first_state (frame : List Pix) (st : MEState) (hff : st.firstFrame = true) :
    (generateMotionMask frame st).currentImage
      = downscale frame st.imageWidth st.imageHeight st.srcWidth ∧
    (generateMotionMask frame st).refImage
      = downscale frame st.imageWidth st.imageHeight st.srcWidth ∧
    (generateMotionMask frame st).currentStableTimes = st.currentStableTimes ∧
    (generateMotionMask frame st).stableRecords = st.stableRecords := by
  simp [generateMotionMask, hff]

/-!
## All-zero masks survive the morphological filter
-/

theorem ind_zero {mask : List Pix} (h : ∀ i, (getPixD mask i).1 = 0) (j : Int) :
    ind mask j = 0 := by
  unfold ind
  split
  · exact h _
  · rfl

theorem adjacents_zero {W : Nat} {mask : List Pix} (h : ∀ i, (getPixD mask i).1 = 0)
    (x y i : Int) : adjacents W mask x y i = 0 := by
  unfold adjacents
  rw [List.countP_eq_zero]
  intro o _
  simp [ind_zero h]

theorem erodePass_zero {W : Nat} {lvl : Int} {mask : List Pix}
    (h : ∀ i, (getPixD mask i).1 = 0) :
    ∀ i, (getPixD (erodePass W lvl mask) i).1 = 0 := by
  intro i
  rcases Nat.lt_or_ge i mask.length with hi | hi
  · unfold erodePass
    rw [getPixD_map_range _ hi]
    simp [h i]
  · unfold erodePass
    rw [getPixD_map_range_ge _ hi]

theorem dilatePass_zero {W : Nat} {mask : List Pix}
    (h : ∀ i, (getPixD mask i).1 = 0) :
    ∀ i, (getPixD (dilatePass W mask) i).1 = 0 := by
  intro i
  rcases Nat.lt_or_ge i mask.length with hi | hi
  · unfold dilatePass
    rw [getPixD_map_range _ hi]
    simp [h i, adjacents_zero h]
  · unfold dilatePass
    rw [getPixD_map_range_ge _ hi]

/-- If pass 2 leaves every reference pixel equal to its tracked pixel, the
output mask (filtered or not) has an all-zero indicator channel. -/
theorem genMask_mask_zero (frame : List Pix) (st : MEState) (hff : st.firstFrame = false)
    (hth : 0 ≤ st.motionThreshold)
    (h : ∀ i, i < st.imageWidth * st.imageHeight →
      ref2At st (downscale frame st.imageWidth st.imageHeight st.srcWidth) i
        = track1At st (downscale frame st.imageWidth st.imageHeight st.srcWidth) i) :
    ∀ i, (getPixD (generateMotionMask frame st).motionMask i).1 = 0 := by
  have hraw : ∀ i,
      (getPixD (rawMask st (downscale frame st.imageWidth st.imageHeight st.srcWidth)) i).1
        = 0 := by
    intro i
    rcases Nat.lt_or_ge i (st.imageWidth * st.imageHeight) with hi | hi
    · unfold rawMask
      rw [getPixD_map_range _ hi]
      simp only [maskPixAt, maskIndicator]
      rw [h i hi, pixelIsDifferent_self hth]
      simp
    · unfold rawMask
      rw [getPixD_map_range_ge _ hi]
  intro i
  simp only [generateMotionMask, hff, Bool.false_eq_true, if_false]
  split
  · exact dilatePass_zero (erodePass_zero hraw) i
  · exact hraw i

/-- C4 (amended): starting from any state whose per-pixel stability records
are all at most `stableCap` (the reachable-state invariant of C6), whose
threshold is nonnegative, and whose timers cannot wrap within the run,
feeding the same frame for at least `stableCap + 2` consecutive calls leaves
the reference image equal to the tracked image at every pixel and the
indicator channel all-zero.  (`stableCap` calls alone do not suffice: see the
counterexample.) -/
theorem C4_convergence_amended (st : MEState) (frame : List Pix) (N : Nat)
    (hth : 0 ≤ st.motionThreshold)
    (hrec : ∀ i, st.stableRecords.getD i 0 ≤ st.stableCap)
    (htimer : ∀ i, st.currentStableTimes.getD i 0 + N < 4294967296)
    (hN : st.stableCap + 2 ≤ N) :
    (genN frame N st).refImage = (genN frame N st).currentImage ∧
    ∀ i, (getPixD (genN frame N st).motionMask i).1 = 0 := by
  obtain ⟨M, rfl⟩ : ∃ M, N = M + 1 := ⟨N - 1, by omega⟩
  have hM : 1 ≤ M := by omega
  obtain ⟨q1, q2, q3, q4, q5, _⟩ := genN_params frame M st
  have huff : (genN frame M st).firstFrame = false := genN_firstFrame frame M st hM
  have hkey : ∀ i, i < (genN frame M st).imageWidth * (genN frame M st).imageHeight →
      ref2At (genN frame M st)
          (downscale frame (genN frame M st).imageWidth (genN frame M st).imageHeight
            (genN frame M st).srcWidth) i
        = track1At (genN frame M st)
            (downscale frame (genN frame M st).imageWidth (genN frame M st).imageHeight
              (genN frame M st).srcWidth) i := by
    intro i hiu
    have hi : i < st.imageWidth * st.imageHeight := by rw [← q1, ← q2]; exact hiu
    have hstruct := (genMask_pixAt frame (genN frame M st) huff hiu).trans
      (pixStep_at (genN frame M st) _ i)
    have hiter : (pixAt (generateMotionMask frame (genN frame M st)) i).r
        = (pixAt (generateMotionMask frame (genN frame M st)) i).c := by
      show (pixAt (genN frame (M + 1) st) i).r = (pixAt (genN frame (M + 1) st) i).c
      by_cases hff : st.firstFrame = true
      · rw [genN_shift frame M st]
        obtain ⟨p1, p2, p3, p4, p5, _⟩ := genMask_params frame st
        have hf1 : (generateMotionMask frame st).firstFrame = false :=
          genMask_firstFrame frame st
        obtain ⟨e1, e2, _, _⟩ := genMask_first_state frame st hff
        rw [genN_pixAt frame (generateMotionMask frame st) hf1 M
          (i := i) (by rw [p1, p2]; exact hi)]
        rw [p1, p2, p3, p4, p5]
        have hc : (pixAt (generateMotionMask frame st) i).c
            = getPixD (downscale frame st.imageWidth st.imageHeight st.srcWidth) i := by
          show getPixD (generateMotionMask frame st).currentImage i = _
          rw [e1]
        have hr : (pixAt (generateMotionMask frame st) i).r
            = getPixD (downscale frame st.imageWidth st.imageHeight st.srcWidth) i := by
          show getPixD (generateMotionMask frame st).refImage i = _
          rw [e2]
        have hfix := iter_fixed hth st.stableCap
          (getPixD (downscale frame st.imageWidth st.imageHeight st.srcWidth) i)
          (pixAt (generateMotionMask frame st) i) hc hr M
        rw [hfix.1, hfix.2]
      · have hff' : st.firstFrame = false := by simpa using hff
        rw [genN_pixAt frame st hff' (M + 1) hi]
        exact iter_promoted hth st.stableCap _ (pixAt st i) (htimer i) (hrec i) hN
    rw [hstruct] at hiter
    exact hiter
  constructor
  · show (generateMotionMask frame (genN frame M st)).refImage
      = (generateMotionMask frame (genN frame M st)).currentImage
    simp only [generateMotionMask, huff, Bool.false_eq_true, if_false]
    exact List.map_congr_left fun i hmem => hkey i (List.mem_range.mp hmem)
  · show ∀ i, (getPixD (generateMotionMask frame (genN frame M st)).motionMask i).1 = 0
    exact genMask_mask_zero frame (genN frame M st) huff (by rw [q4]; exact hth) hkey

/-- C4 counterexample: `c4state` (stableCap = 2, record already at the cap,
timer 0, reference pixel far from the tracked pixel, erosion disabled) is fed
the constant frame `c4frame` for exactly `stableCap = 2` consecutive calls —
an instance of "at least stableCap consecutive calls" — yet after the last
call the indicator is 255 and the reference image still differs from the
tracked image: the timer (1, then 2) never exceeds the record, so no
promotion happens within `stableCap` calls. -/
theorem C4_counterexample :
    c4state.stableCap = 2 ∧
    (getPixD (genN c4frame 2 c4state).motionMask 0).1 = 255 ∧
    (genN c4frame 2 c4state).refImage ≠ (genN c4frame 2 c4state).currentImage :=
  ⟨rfl, by decide, by decide⟩

theorem C4_convergence_amended_witness :
    (genN c4frame 4 c4state).refImage = (genN c4frame 4 c4state).currentImage ∧
    (getPixD (genN c4frame 4 c4state).motionMask 0).1 = 0 :=
  ⟨(C4_convergence_amended c4state c4frame 4 (by norm_num [c4state])
      (fun i => by
        rcases Nat.lt_or_ge i 1 with hi | hi
        · interval_cases i
          · exact le_refl 2
        · rw [List.getD_eq_default _ _ (by simpa [c4state] using hi)]
          exact Nat.zero_le _)
      (fun i => by
        rcases Nat.lt_or_ge i 1 with hi | hi
        · interval_cases i
          · norm_num [c4state]
        · rw [List.getD_eq_default _ _ (by simpa [c4state] using hi)]
          norm_num)
      (by norm_num [c4state])).1,
   (C4_convergence_amended c4state c4frame 4 (by norm_num [c4state])
      (fun i => by
        rcases Nat.lt_or_ge i 1 with hi | hi
        · interval_cases i
          · exact le_refl 2
        · rw [List.getD_eq_default _ _ (by simpa [c4state] using hi)]
          exact Nat.zero_le _)
      (fun i => by
        rcases Nat.lt_or_ge i 1 with hi | hi
        · interval_cases i
          · norm_num [c4state]
        · rw [List.getD_eq_default _ _ (by simpa [c4state] using hi)]
          norm_num)
      (by norm_num [c4state])).2 0⟩

/-!
## Downscale loop: the pointer walk computes per-block accumulation
-/

theorem getPixD_set_eq {l : List Pix} {j : Nat} (h : j < l.length) (v : Pix) :
    getPixD (l.set j v) j = v := by
  unfold getPixD
  rw [List.getD_eq_getElem _ _ (by simpa using h)]
  exact List.getElem_set_self _

theorem getPixD_set_ne {l : List Pix} {i j : Nat} (h : i ≠ j) (v : Pix) :
    getPixD (l.set j v) i = getPixD l i := by
  unfold getPixD
  rw [List.getD_eq_getElem?_getD, List.getD_eq_getElem?_getD,
    List.getElem?_set_ne (by omega)]

theorem passAccum_length (frame : List Pix) (W srcW R s : Nat) (k : Nat)
    (buf : List Pix) :
    (passAccum frame W srcW R s k buf).length = buf.length := by
  induction k with
  | zero => rfl
  | succ k ih =>
    show ((passAccum frame W srcW R s k buf).set _ _).length = _
    rw [List.length_set, ih]

theorem downscaleLoopAux_stall (frame : List Pix) (W srcW size : Nat)
    (st : DownscaleSt) (h : ¬ st.accumIdx < size) :
    ∀ m, downscaleLoopAux frame W srcW size m st = st := by
  intro m
  cases m with
  | zero => rfl
  | succ m =>
    show (if st.accumIdx < size then _ else st) = st
    rw [if_neg h]

theorem downscaleLoopAux_add (frame : List Pix) (W srcW size : Nat) (a b : Nat)
    (st : DownscaleSt) :
    downscaleLoopAux frame W srcW size (a + b) st
      = downscaleLoopAux frame W srcW size b (downscaleLoopAux frame W srcW size a st) := by
  induction a generalizing st with
  | zero =>
    rw [Nat.zero_add]
    rfl
  | succ a ih =>
    have hstep : downscaleLoopAux frame W srcW size (a + 1) st
        = if st.accumIdx < size then
            downscaleLoopAux frame W srcW size a (downscaleStep frame W srcW st)
          else st := rfl
    rw [show a + 1 + b = (a + b) + 1 by omega]
    have hstep2 : downscaleLoopAux frame W srcW size ((a + b) + 1) st
        = if st.accumIdx < size then
            downscaleLoopAux frame W srcW size (a + b) (downscaleStep frame W srcW st)
          else st := rfl
    rw [hstep2, hstep]
    by_cases h : st.accumIdx < size
    · rw [if_pos h, if_pos h, ih]
    · rw [if_neg h, if_neg h, downscaleLoopAux_stall frame W srcW size st h]

/-- One mid-pass iteration: accumulate the source pixel pair and advance
within the row. -/
theorem downscaleStep_mid (frame : List Pix) (W srcW R s k : Nat) (buf : List Pix)
    (hk : k + 1 < W) :
    downscaleStep frame W srcW (midState W srcW R s k buf)
      = midState W srcW R s (k + 1)
          (buf.set (R * W + k)
            (addPix (getPixD buf (R * W + k))
              (getPixD frame ((2 * R + s) * srcW + 2 * k))
              (getPixD frame ((2 * R + s) * srcW + 2 * k + 1)))) := by
  unfold downscaleStep midState
  simp only
  rw [if_neg (by omega)]
  congr 1 <;> first | rfl | ring

/-- The last iteration of the first pass of a row: wrap back to the start of
the same accumulator row and move the source pointer to row `2R + 1`. -/
theorem downscaleStep_rowend0 (frame : List Pix) (W srcW R k : Nat) (buf : List Pix)
    (hk : k + 1 = W) :
    downscaleStep frame W srcW (midState W srcW R 0 k buf)
      = midState W srcW R 1 0
          (buf.set (R * W + k)
            (addPix (getPixD buf (R * W + k))
              (getPixD frame ((2 * R + 0) * srcW + 2 * k))
              (getPixD frame ((2 * R + 0) * srcW + 2 * k + 1)))) := by
  simp only [downscaleStep, midState]
  rw [if_pos hk]
  rw [if_neg (show ¬(0 + 1 = 2) by omega)]
  congr 1 <;> first | rfl | ring

/-- The last iteration of the second pass of a row: advance to the next
accumulator row and to source row `2(R+1)`. -/
theorem downscaleStep_rowend1 (frame : List Pix) (W srcW R k : Nat) (buf : List Pix)
    (hk : k + 1 = W) :
    downscaleStep frame W srcW (midState W srcW R 1 k buf)
      = midState W srcW (R + 1) 0 0
          (buf.set (R * W + k)
            (addPix (getPixD buf (R * W + k))
              (getPixD frame ((2 * R + 1) * srcW + 2 * k))
              (getPixD frame ((2 * R + 1) * srcW + 2 * k + 1)))) := by
  simp only [downscaleStep, midState]
  rw [if_pos hk]
  simp only [if_true]
  congr 1 <;> first | rfl | ring

theorem accum_guard {W H R k : Nat} (hR : R < H) (hk : k < W) : R * W + k < W * H :=
  calc R * W + k < R * W + W := by omega
  _ = (R + 1) * W := by ring
  _ ≤ H * W := Nat.mul_le_mul_right W hR
  _ = W * H := Nat.mul_comm H W

/-- Running the remaining iterations of one pass from its `k`-th mid-state:
all remaining pairs are accumulated and the pass ends with the row-end
iteration applied to the last mid-state. -/
theorem loop_mid (frame : List Pix) (W srcW H R s : Nat) (hR : R < H) (buf : List Pix) :
    ∀ m k, k + m + 1 = W →
      downscaleLoopAux frame W srcW (W * H) (m + 1)
          (midState W srcW R s k (passAccum frame W srcW R s k buf))
        = downscaleStep frame W srcW
            (midState W srcW R s (W - 1) (passAccum frame W srcW R s (W - 1) buf)) := by
  intro m
  induction m with
  | zero =>
    intro k hk
    obtain rfl : k = W - 1 := by omega
    show (if (midState W srcW R s (W - 1)
        (passAccum frame W srcW R s (W - 1) buf)).accumIdx < W * H then _ else _) = _
    rw [if_pos (show (midState W srcW R s (W - 1)
      (passAccum frame W srcW R s (W - 1) buf)).accumIdx < W * H from
      accum_guard hR (by omega))]
    rfl
  | succ m ih =>
    intro k hk
    show (if (midState W srcW R s k
        (passAccum frame W srcW R s k buf)).accumIdx < W * H then _ else _) = _
    rw [if_pos (show (midState W srcW R s k
      (passAccum frame W srcW R s k buf)).accumIdx < W * H from
      accum_guard hR (by omega))]
    rw [downscaleStep_mid frame W srcW R s k _ (by omega)]
    exact ih (k + 1) (by omega)

theorem loop_pass0 (frame : List Pix) (W srcW H R : Nat) (hR : R < H) (hW : 1 ≤ W)
    (buf : List Pix) :
    downscaleLoopAux frame W srcW (W * H) W (midState W srcW R 0 0 buf)
      = midState W srcW R 1 0 (passAccum frame W srcW R 0 W buf) := by
  obtain ⟨m, rfl⟩ : ∃ m, W = m + 1 := ⟨W - 1, by omega⟩
  have h1 := loop_mid frame (m + 1) srcW H R 0 hR buf m 0 (by omega)
  rw [show m + 1 - 1 = m by omega] at h1
  refine h1.trans ?_
  rw [downscaleStep_rowend0 frame (m + 1) srcW R m
    (passAccum frame (m + 1) srcW R 0 m buf) (by omega)]
  rfl

theorem loop_pass1 (frame : List Pix) (W srcW H R : Nat) (hR : R < H) (hW : 1 ≤ W)
    (buf : List Pix) :
    downscaleLoopAux frame W srcW (W * H) W (midState W srcW R 1 0 buf)
      = midState W srcW (R + 1) 0 0 (passAccum frame W srcW R 1 W buf) := by
  obtain ⟨m, rfl⟩ : ∃ m, W = m + 1 := ⟨W - 1, by omega⟩
  have h1 := loop_mid frame (m + 1) srcW H R 1 hR buf m 0 (by omega)
  rw [show m + 1 - 1 = m by omega] at h1
  refine h1.trans ?_
  rw [downscaleStep_rowend1 frame (m + 1) srcW R m
    (passAccum frame (m + 1) srcW R 1 m buf) (by omega)]
  rfl

theorem loop_rows (frame : List Pix) (W srcW H : Nat) (hW : 1 ≤ W) :
    ∀ m R buf, R + m = H →
      downscaleLoopAux frame W srcW (W * H) (2 * W * m) (midState W srcW R 0 0 buf)
        = midState W srcW H 0 0 (rowsAccum frame W srcW m R buf) := by
  intro m
  induction m with
  | zero =>
    intro R buf hR
    obtain rfl : R = H := by omega
    rfl
  | succ m ih =>
    intro R buf hR
    have hRH : R < H := by omega
    rw [show 2 * W * (m + 1) = W + (W + 2 * W * m) by ring]
    rw [downscaleLoopAux_add, loop_pass0 frame W srcW H R hRH hW buf,
      downscaleLoopAux_add, loop_pass1 frame W srcW H R hRH hW
        (passAccum frame W srcW R 0 W buf)]
    exact ih (R + 1) (rowAccum frame W srcW R buf) (by omega)

/-- The whole accumulation loop computes `rowsAccum` over all `H` rows. -/
theorem downscale_accum (frame : List Pix) (W H srcW : Nat) (hW : 1 ≤ W) (hH : 1 ≤ H) :
    downscale frame W H srcW
      = (rowsAccum frame W srcW H 0 (List.replicate (W * H) (0, 0, 0))).map
          (fun a => (a.1 / 4 % 256, a.2.1 / 4 % 256, a.2.2 / 4 % 256)) := by
  unfold downscale
  dsimp only
  have hinit : ({ accumBuf := List.replicate (W * H) (0, 0, 0),
                  accumIdx := 0,
                  accumRowStart := 0,
                  accumRowsDone := 0,
                  rowPixelsDone := 0,
                  srcRowsPerAccumRow := 0,
                  srcIdx := 0 } : DownscaleSt)
      = midState W srcW 0 0 0 (List.replicate (W * H) (0, 0, 0)) := by
    simp [midState]
  rw [hinit, show 2 * (W * H) = 2 * W * H by ring,
    loop_rows frame W srcW H hW H 0 _ (by omega)]
  rfl

theorem getPixD_passAccum (frame : List Pix) (W srcW R s : Nat) :
    ∀ (k : Nat) (buf : List Pix), R * W + k ≤ buf.length → ∀ j,
      getPixD (passAccum frame W srcW R s k buf) j
        = if R * W ≤ j ∧ j < R * W + k then
            addPix (getPixD buf j)
              (getPixD frame ((2 * R + s) * srcW + 2 * (j - R * W)))
              (getPixD frame ((2 * R + s) * srcW + 2 * (j - R * W) + 1))
          else getPixD buf j := by
  intro k
  induction k with
  | zero =>
    intro buf _ j
    rw [if_neg (by omega)]
    rfl
  | succ k ih =>
    intro buf hlen j
    show getPixD ((passAccum frame W srcW R s k buf).set (R * W + k) _) j = _
    by_cases hj : j = R * W + k
    · subst hj
      rw [getPixD_set_eq (by rw [passAccum_length]; omega)]
      rw [ih buf (by omega) (R * W + k), if_neg (by omega)]
      rw [if_pos (by omega)]
      rw [show R * W + k - R * W = k by omega]
    · rw [getPixD_set_ne hj]
      rw [ih buf (by omega) j]
      by_cases hin : R * W ≤ j ∧ j < R * W + k
      · rw [if_pos hin, if_pos (by omega)]
      · rw [if_neg hin, if_neg (by omega)]

theorem rowAccum_length (frame : List Pix) (W srcW R : Nat) (buf : List Pix) :
    (rowAccum frame W srcW R buf).length = buf.length := by
  unfold rowAccum
  rw [passAccum_length, passAccum_length]

theorem getPixD_rowAccum (frame : List Pix) (W srcW R : Nat) (buf : List Pix)
    (hlen : R * W + W ≤ buf.length) (j : Nat) :
    getPixD (rowAccum frame W srcW R buf) j
      = if R * W ≤ j ∧ j < R * W + W then
          addPix
            (addPix (getPixD buf j)
              (getPixD frame ((2 * R + 0) * srcW + 2 * (j - R * W)))
              (getPixD frame ((2 * R + 0) * srcW + 2 * (j - R * W) + 1)))
            (getPixD frame ((2 * R + 1) * srcW + 2 * (j - R * W)))
            (getPixD frame ((2 * R + 1) * srcW + 2 * (j - R * W) + 1))
        else getPixD buf j := by
  unfold rowAccum
  rw [getPixD_passAccum frame W srcW R 1 W _ (by rw [passAccum_length]; omega) j]
  rw [getPixD_passAccum frame W srcW R 0 W buf (by omega) j]
  by_cases hin : R * W ≤ j ∧ j < R * W + W
  · rw [if_pos hin, if_pos hin, if_pos hin]
  · rw [if_neg hin, if_neg hin, if_neg hin]

theorem rowsAccum_length (frame : List Pix) (W srcW : Nat) :
    ∀ m R (buf : List Pix), (rowsAccum frame W srcW m R buf).length = buf.length := by
  intro m
  induction m with
  | zero => intro R buf; rfl
  | succ m ih =>
    intro R buf
    show (rowsAccum frame W srcW m (R + 1) (rowAccum frame W srcW R buf)).length = _
    rw [ih, rowAccum_length]

/-- A pass only writes at accumulator indices `R*W` and above. -/
theorem getPixD_passAccum_lt (frame : List Pix) (W srcW R s : Nat) :
    ∀ (k : Nat) (buf : List Pix) (j : Nat), j < R * W →
      getPixD (passAccum frame W srcW R s k buf) j = getPixD buf j := by
  intro k
  induction k with
  | zero => intro buf j _; rfl
  | succ k ih =>
    intro buf j hj
    show getPixD ((passAccum frame W srcW R s k buf).set (R * W + k) _) j = _
    rw [getPixD_set_ne (by omega)]
    exact ih buf j hj

/-- Pixels below row `R` are untouched by `rowsAccum` starting at `R`. -/
theorem getPixD_rowsAccum_lt (frame : List Pix) (W srcW : Nat) :
    ∀ m R (buf : List Pix) (j : Nat), j < R * W →
      getPixD (rowsAccum frame W srcW m R buf) j = getPixD buf j := by
  intro m
  induction m with
  | zero => intro R buf j _; rfl
  | succ m ih =>
    intro R buf j hj
    show getPixD (rowsAccum frame W srcW m (R + 1) (rowAccum frame W srcW R buf)) j = _
    rw [ih (R + 1) _ j (by
      have : R * W ≤ (R + 1) * W := Nat.mul_le_mul_right W (by omega)
      omega)]
    unfold rowAccum
    rw [getPixD_passAccum_lt frame W srcW R 1 W _ j hj,
      getPixD_passAccum_lt frame W srcW R 0 W buf j hj]

/-- The value accumulated at pixel `(x, Rp)` after processing rows
`R .. R+m-1`: the four source samples of the 2x2 block at `(2x, 2Rp)`. -/
theorem getPixD_rowsAccum (frame : List Pix) (W srcW : Nat) :
    ∀ m R (buf : List Pix), (R + m) * W ≤ buf.length →
      ∀ Rp x, x < W → R ≤ Rp → Rp < R + m →
        getPixD (rowsAccum frame W srcW m R buf) (Rp * W + x)
          = addPix
              (addPix (getPixD buf (Rp * W + x))
                (getPixD frame ((2 * Rp + 0) * srcW + 2 * x))
                (getPixD frame ((2 * Rp + 0) * srcW + 2 * x + 1)))
              (getPixD frame ((2 * Rp + 1) * srcW + 2 * x))
              (getPixD frame ((2 * Rp + 1) * srcW + 2 * x + 1)) := by
  intro m
  induction m with
  | zero =>
    intro R buf _ Rp x _ h1 h2
    omega
  | succ m ih =>
    intro R buf hlen Rp x hx h1 h2
    have hrow : R * W + W = (R + 1) * W := by ring
    have hmono : (R + 1) * W ≤ (R + (m + 1)) * W := Nat.mul_le_mul_right W (by omega)
    show getPixD (rowsAccum frame W srcW m (R + 1) (rowAccum frame W srcW R buf)) _ = _
    rcases Nat.lt_or_ge Rp (R + 1) with hR | hR
    · obtain rfl : Rp = R := by omega
      rw [getPixD_rowsAccum_lt frame W srcW m (Rp + 1) _ (Rp * W + x) (by omega)]
      rw [getPixD_rowAccum frame W srcW Rp buf (by omega) (Rp * W + x)]
      rw [if_pos ⟨by omega, by omega⟩]
      rw [show Rp * W + x - Rp * W = x by omega]
    · have hmono2 : (R + 1) * W ≤ Rp * W := Nat.mul_le_mul_right W hR
      rw [ih (R + 1) (rowAccum frame W srcW R buf)
        (by rw [rowAccum_length]
            have : (R + 1 + m) * W = (R + (m + 1)) * W := by ring
            omega)
        Rp x hx hR (by omega)]
      rw [getPixD_rowAccum frame W srcW R buf (by omega) (Rp * W + x)]
      rw [if_neg (by omega)]

theorem downscaleStep_length (frame : List Pix) (W srcW : Nat) (st : DownscaleSt) :
    (downscaleStep frame W srcW st).accumBuf.length = st.accumBuf.length := by
  unfold downscaleStep
  dsimp only
  split
  · split <;> exact List.length_set _ _ _
  · exact List.length_set _ _ _

theorem downscaleLoopAux_length (frame : List Pix) (W srcW size : Nat) :
    ∀ (fuel : Nat) (st : DownscaleSt),
      (downscaleLoopAux frame W srcW size fuel st).accumBuf.length
        = st.accumBuf.length := by
  intro fuel
  induction fuel with
  | zero => intro st; rfl
  | succ fuel ih =>
    intro st
    show (if st.accumIdx < size then _ else st).accumBuf.length = _
    split
    · rw [ih, downscaleStep_length]
    · rfl

theorem downscale_length (frame : List Pix) (W H srcW : Nat) :
    (downscale frame W H srcW).length = W * H := by
  unfold downscale
  dsimp only
  rw [List.length_map, downscaleLoopAux_length]
  exact List.length_replicate _ _

theorem getPixD_map (f : Pix → Pix) (l : List Pix) {j : Nat} (hj : j < l.length) :
    getPixD (l.map f) j = f (getPixD l j) := by
  unfold getPixD
  rw [List.getD_eq_getElem _ _ (by simpa using hj), List.getD_eq_getElem _ _ (by simpa using hj)]
  exact List.getElem_map f

theorem getPixD_replicate {k j : Nat} :
    getPixD (List.replicate k ((0, 0, 0) : Pix)) j = (0, 0, 0) :=
  getD_replicate' _

/-- C5: the constructor sizes the downscaled geometry to
`floor(srcW/2) x floor(srcH/2)`; `downscale` produces a buffer of exactly
that many pixels, and every output pixel `(x, r)` is, per channel, the floor
of the sum of the four source samples of the 2x2 block at `(2x, 2r)` divided
by 4.  Source pixels in a trailing odd row or column are never read by the
formula, so they contribute nothing. -/
theorem C5_downscale (srcW srcH : Nat) (frame : List Pix)
    (hlen : frame.length = srcW * srcH)
    (hbytes : ∀ p ∈ frame, p.1 < 256 ∧ p.2.1 < 256 ∧ p.2.2 < 256) :
    (∀ w h : Nat, ∀ fps : ℚ, ∀ b : Bool,
      (mkMotionExtractor w h fps b).imageWidth = w / 2 ∧
      (mkMotionExtractor w h fps b).imageHeight = h / 2) ∧
    (downscale frame (srcW / 2) (srcH / 2) srcW).length = srcW / 2 * (srcH / 2) ∧
    (∀ r x, r < srcH / 2 → x < srcW / 2 →
      getPixD (downscale frame (srcW / 2) (srcH / 2) srcW) (r * (srcW / 2) + x)
        = (((getPixD frame (2 * r * srcW + 2 * x)).1
              + (getPixD frame (2 * r * srcW + 2 * x + 1)).1
              + (getPixD frame ((2 * r + 1) * srcW + 2 * x)).1
              + (getPixD frame ((2 * r + 1) * srcW + 2 * x + 1)).1) / 4,
           ((getPixD frame (2 * r * srcW + 2 * x)).2.1
              + (getPixD frame (2 * r * srcW + 2 * x + 1)).2.1
              + (getPixD frame ((2 * r + 1) * srcW + 2 * x)).2.1
              + (getPixD frame ((2 * r + 1) * srcW + 2 * x + 1)).2.1) / 4,
           ((getPixD frame (2 * r * srcW + 2 * x)).2.2
              + (getPixD frame (2 * r * srcW + 2 * x + 1)).2.2
              + (getPixD frame ((2 * r + 1) * srcW + 2 * x)).2.2
              + (getPixD frame ((2 * r + 1) * srcW + 2 * x + 1)).2.2) / 4)) := by
  have hb : ∀ j, (getPixD frame j).1 < 256 ∧ (getPixD frame j).2.1 < 256 ∧
      (getPixD frame j).2.2 < 256 := by
    intro j
    rcases Nat.lt_or_ge j frame.length with hj | hj
    · unfold getPixD
      rw [List.getD_eq_getElem _ _ (by simpa using hj)]
      exact hbytes _ (List.getElem_mem _)
    · unfold getPixD
      rw [List.getD_eq_default _ _ (by simpa using hj)]
      exact ⟨by norm_num, by norm_num, by norm_num⟩
  refine ⟨fun w h fps b => ⟨rfl, rfl⟩, downscale_length frame _ _ srcW, ?_⟩
  intro r x hr hx
  have hW : 1 ≤ srcW / 2 := by omega
  have hH : 1 ≤ srcH / 2 := by omega
  rw [downscale_accum frame (srcW / 2) (srcH / 2) srcW hW hH]
  rw [getPixD_map _ _ (by
    rw [rowsAccum_length, List.length_replicate]
    exact accum_guard hr hx)]
  rw [getPixD_rowsAccum frame (srcW / 2) srcW (srcH / 2) 0 _
    (by rw [List.length_replicate, Nat.zero_add]; exact Nat.le_of_eq (Nat.mul_comm _ _))
    r x hx (by omega) (by omega)]
  rw [getPixD_replicate]
  simp only [addPix, Nat.add_zero, Nat.zero_add]
  obtain ⟨a1, a2, a3⟩ := hb (2 * r * srcW + 2 * x)
  obtain ⟨b1, b2, b3⟩ := hb (2 * r * srcW + 2 * x + 1)
  obtain ⟨c1, c2, c3⟩ := hb ((2 * r + 1) * srcW + 2 * x)
  obtain ⟨d1, d2, d3⟩ := hb ((2 * r + 1) * srcW + 2 * x + 1)
  simp only [Prod.mk.injEq]
  refine ⟨by omega, by omega, by omega⟩

theorem C5_downscale_witness :
    (downscale c5frame (2 / 2) (2 / 2) 2).length = 2 / 2 * (2 / 2) ∧
    getPixD (downscale c5frame (2 / 2) (2 / 2) 2) (0 * (2 / 2) + 0)
      = (((getPixD c5frame (2 * 0 * 2 + 2 * 0)).1
            + (getPixD c5frame (2 * 0 * 2 + 2 * 0 + 1)).1
            + (getPixD c5frame ((2 * 0 + 1) * 2 + 2 * 0)).1
            + (getPixD c5frame ((2 * 0 + 1) * 2 + 2 * 0 + 1)).1) / 4,
         ((getPixD c5frame (2 * 0 * 2 + 2 * 0)).2.1
            + (getPixD c5frame (2 * 0 * 2 + 2 * 0 + 1)).2.1
            + (getPixD c5frame ((2 * 0 + 1) * 2 + 2 * 0)).2.1
            + (getPixD c5frame ((2 * 0 + 1) * 2 + 2 * 0 + 1)).2.1) / 4,
         ((getPixD c5frame (2 * 0 * 2 + 2 * 0)).2.2
            + (getPixD c5frame (2 * 0 * 2 + 2 * 0 + 1)).2.2
            + (getPixD c5frame ((2 * 0 + 1) * 2 + 2 * 0)).2.2
            + (getPixD c5frame ((2 * 0 + 1) * 2 + 2 * 0 + 1)).2.2) / 4) :=
  ⟨(C5_downscale 2 2 c5frame rfl (by decide)).2.1,
   (C5_downscale 2 2 c5frame rfl (by decide)).2.2 0 0 (by decide) (by decide)⟩
